import Mathlib

/-!
# Verification of the pyaux format-conversion core and `datadeque`

This file shallowly embeds, in Lean 4, the two pieces of the `pyaux`
repository that its specification makes claims about:

* the generic format-conversion utility (`f_convert` and friends).  The
  converter's Python module `pyaux.bin.f_convert` is only *declared* in the
  repository snapshot (as a `[project.scripts]` entry point in
  `pyproject.toml`); its body is not present.  Everything about it is
  therefore modelled from the specification's own description: a value tree
  (recursive union of null/boolean/number/text/sequence/mapping), three
  named formats `{json, yaml, msgpack}`, and a single linear
  decode-then-encode transform with the error taxonomy
  {UnsupportedFormatError, DecodeError, EncodeError, IOError-passthrough}.
  Since the spec fixes no concrete wire syntax (codecs are delegated to
  standard libraries), serialized byte streams are abstracted as streams of
  lexical tokens (`Tok`).

* the `datadeque.todataframe` method from `src/pyaux/_datadeque.pyx`,
  embedded directly from the Cython source.
-/

namespace Pyaux

/-- The generic value tree: a recursively defined union of
{null, boolean, number, text, ordered sequence, mapping}.  Mapping keys are
full values: the YAML and msgpack type systems allow non-text keys, and
strict JSON's restriction to text keys is expressed by `jsonOk` below. -/
inductive Value where
  | null : Value
  | bool (b : Bool) : Value
  | num (n : Int) : Value
  | str (s : String) : Value
  | seq (items : List Value) : Value
  | map (entries : List (Value × Value)) : Value
deriving Repr

/-- The enumerated set of supported serialization formats. -/
inductive Format where
  | json : Format
  | yaml : Format
  | msgp : Format
deriving DecidableEq, Repr

/-- Lexical tokens standing in for serialized bytes.  The spec fixes no
concrete wire syntax (each codec is delegated to a library), so a byte
stream is abstracted as a `List Tok`; a `tag` token marks which format a
stream belongs to, reflecting that the three formats have mutually
unintelligible encodings. -/
inductive Tok where
  | tag (f : Format) : Tok
  | tnull : Tok
  | ttrue : Tok
  | tfalse : Tok
  | tnum (n : Int) : Tok
  | tstr (s : String) : Tok
  | lbrack : Tok
  | rbrack : Tok
  | lbrace : Tok
  | rbrace : Tok
deriving DecidableEq, Repr

mutual

/-- Serialize a value tree to a token stream (shared by all format codecs). -/
def ser : Value → List Tok
  | .null => [.tnull]
  | .bool true => [.ttrue]
  | .bool false => [.tfalse]
  | .num n => [.tnum n]
  | .str s => [.tstr s]
  | .seq items => .lbrack :: serItems items ++ [.rbrack]
  | .map entries => .lbrace :: serEntries entries ++ [.rbrace]

/-- Serialize the elements of a sequence, in order. -/
def serItems : List Value → List Tok
  | [] => []
  | v :: vs => ser v ++ serItems vs

/-- Serialize the key/value pairs of a mapping, in order. -/
def serEntries : List (Value × Value) → List Tok
  | [] => []
  | (k, v) :: es => ser k ++ ser v ++ serEntries es

end

mutual

/-- Fuel-indexed recursive-descent parser for one value. -/
def parseV : Nat → List Tok → Option (Value × List Tok)
  | 0, _ => none
  | _ + 1, [] => none
  | fuel + 1, t :: ts =>
    match t with
    | .tnull => some (.null, ts)
    | .ttrue => some (.bool true, ts)
    | .tfalse => some (.bool false, ts)
    | .tnum n => some (.num n, ts)
    | .tstr s => some (.str s, ts)
    | .lbrack =>
      match parseItems fuel ts with
      | some (xs, rest) => some (.seq xs, rest)
      | none => none
    | .lbrace =>
      match parseEntries fuel ts with
      | some (es, rest) => some (.map es, rest)
      | none => none
    | _ => none

/-- Parse sequence elements up to the closing bracket. -/
def parseItems : Nat → List Tok → Option (List Value × List Tok)
  | 0, _ => none
  | fuel + 1, ts =>
    match ts with
    | .rbrack :: rest => some ([], rest)
    | _ =>
      match parseV fuel ts with
      | some (v, rest) =>
        match parseItems fuel rest with
        | some (vs, rest2) => some (v :: vs, rest2)
        | none => none
      | none => none

/-- Parse mapping entries up to the closing brace. -/
def parseEntries : Nat → List Tok → Option (List (Value × Value) × List Tok)
  | 0, _ => none
  | fuel + 1, ts =>
    match ts with
    | .rbrace :: rest => some ([], rest)
    | _ =>
      match parseV fuel ts with
      | some (k, rest) =>
        match parseV fuel rest with
        | some (v, rest2) =>
          match parseEntries fuel rest2 with
          | some (es, rest3) => some ((k, v) :: es, rest3)
          | none => none
        | none => none
      | none => none

end

mutual

/-- Whether a value tree is expressible in strict JSON's type system:
all mapping keys, recursively, must be text. -/
def jsonOk : Value → Bool
  | .null => true
  | .bool _ => true
  | .num _ => true
  | .str _ => true
  | .seq items => jsonOkItems items
  | .map entries => jsonOkEntries entries

/-- `jsonOk` over the elements of a sequence. -/
def jsonOkItems : List Value → Bool
  | [] => true
  | v :: vs => jsonOk v && jsonOkItems vs

/-- `jsonOk` over the entries of a mapping: keys must be text. -/
def jsonOkEntries : List (Value × Value) → Bool
  | [] => true
  | (k, v) :: es =>
    (match k with | .str _ => true | _ => false) && jsonOk v && jsonOkEntries es

end

/-- Modelled from the spec: whether a value tree is expressible in a given
format's type system.  Strict JSON requires text mapping keys; the YAML and
msgpack value models cover the whole tree type. -/
def typeOk : Format → Value → Bool
  | .json, v => jsonOk v
  | .yaml, _ => true
  | .msgp, _ => true

/-- The spec's error taxonomy:
{UnsupportedFormatError, DecodeError, EncodeError, IOError-passthrough}. -/
inductive ConvError where
  | unsupportedFormat : ConvError
  | decodeError : ConvError
  | encodeError : ConvError
  | ioError : ConvError
deriving DecidableEq, Repr

/-- Modelled from the spec: map a format identifier string to a format, or
`none` when the identifier is not in the enumerated set
{json, yaml, msgpack}. -/
def parseFormat : String → Option Format
  | "json" => some Format.json
  | "yaml" => some Format.yaml
  | "msgpack" => some Format.msgp
  | _ => none

/-- Modelled from the spec: the encoder of format `f` (delegated to a codec
library).  It fails with an EncodeError if the value tree contains a type
the format cannot represent; otherwise it emits the format-tagged token
stream for the tree. -/
def encodeF (f : Format) (v : Value) : Except ConvError (List Tok) :=
  if typeOk f v then .ok (Tok.tag f :: ser v) else .error .encodeError

/-- Modelled from the spec: the decoder of format `f` (delegated to a codec
library).  It fails with a DecodeError when the token stream is not a valid
document of format `f`: wrong or missing format tag, unparsable body,
trailing garbage, or a tree outside the format's type system. -/
def decodeF (f : Format) (bytes : List Tok) : Except ConvError Value :=
  match bytes with
  | [] => .error .decodeError
  | t :: body =>
    if t = Tok.tag f then
      match parseV (body.length + 1) body with
      | some (v, []) => if typeOk f v then .ok v else .error .decodeError
      | _ => .error .decodeError
    else .error .decodeError

/-- Observable I/O events of one converter invocation: a (whole-document)
read from the input, or a write of the full output. -/
inductive Ev where
  | read : Ev
  | write (out : List Tok) : Ev
deriving DecidableEq, Repr

/-- Modelled from the spec: one invocation of the format converter
(`f_convert`).  `srcId`/`tgtId` are the format identifier strings; `readRes`
is the result of reading the input (`none` standing for an I/O failure).
The invocation is a single linear transform — resolve both format
identifiers, read the whole document, decode, encode, write — and returns
its result together with the trace of I/O events it performed.  Unsupported
identifiers fail before any read or write; decode/encode failures leave
nothing written. -/
def convert (srcId tgtId : String) (readRes : Option (List Tok)) :
    Except ConvError (List Tok) × List Ev :=
  match parseFormat srcId, parseFormat tgtId with
  | some src, some tgt =>
    match readRes with
    | none => (.error .ioError, [])
    | some input =>
      match decodeF src input with
      | .ok v =>
        match encodeF tgt v with
        | .ok out => (.ok out, [.read, .write out])
        | .error e => (.error e, [.read])
      | .error e => (.error e, [.read])
  | _, _ => (.error .unsupportedFormat, [])

/-- The spec's description of the transform as a plain composition:
decode the whole document with the source codec, then encode the resulting
value tree with the target codec (no intermediate rewriting). -/
def specTransform (src tgt : Format) (input : List Tok) :
    Except ConvError (List Tok) :=
  (decodeF src input).bind (encodeF tgt)

/-- Modelled from the spec: human-readable message for each error. -/
def errMessage : ConvError → String
  | .unsupportedFormat => "unsupported format"
  | .decodeError => "failed to decode input"
  | .encodeError => "cannot encode value in target format"
  | .ioError => "input/output error"

/-- Modelled from the spec: the CLI entry point around one `convert`
invocation.  Returns (exit code, stdout bytes, stderr lines): exit code 0
with the converted bytes on success, exit code 1 with a human-readable
message on standard error for any failure, with no retry. -/
def mainCLI (srcId tgtId : String) (readRes : Option (List Tok)) :
    Nat × List Tok × List String :=
  match convert srcId tgtId readRes with
  | (.ok out, _) => (0, out, [])
  | (.error e, _) => (1, [], [errMessage e])

/-- One converter request: format identifiers plus the input read result. -/
structure Req where
  srcId : String
  tgtId : String
  readRes : Option (List Tok)
deriving DecidableEq

/-- Modelled from the spec: a batch of independent converter invocations.
Each conversion is a stateless call sharing no mutable resources, so a run
is just the list of the per-request results. -/
def runAll (reqs : List Req) : List (Except ConvError (List Tok) × List Ev) :=
  reqs.map (fun r => convert r.srcId r.tgtId r.readRes)

/-! ## Round trip of the token codec -/

theorem ser_head_spec (v : Value) :
    ∃ t ts', ser v = t :: ts' ∧ t ≠ Tok.rbrack ∧ t ≠ Tok.rbrace := by
  cases v with
  | null => exact ⟨_, _, rfl, by simp, by simp⟩
  | bool b => cases b with
    | false => exact ⟨_, _, rfl, by simp, by simp⟩
    | true => exact ⟨_, _, rfl, by simp, by simp⟩
  | num n => exact ⟨_, _, rfl, by simp, by simp⟩
  | str s => exact ⟨_, _, rfl, by simp, by simp⟩
  | seq items => exact ⟨_, _, rfl, by simp, by simp⟩
  | map entries => exact ⟨_, _, rfl, by simp, by simp⟩

theorem ser_length_pos (v : Value) : 1 ≤ (ser v).length := by
  obtain ⟨t, ts', hv, -, -⟩ := ser_head_spec v
  simp [hv]

theorem parseItems_step {fuel : Nat} {t : Tok} {ts rest rest2 : List Tok}
    {v : Value} {vs : List Value} (ht : t ≠ Tok.rbrack)
    (h1 : parseV fuel (t :: ts) = some (v, rest))
    (h2 : parseItems fuel rest = some (vs, rest2)) :
    parseItems (fuel + 1) (t :: ts) = some (v :: vs, rest2) := by
  cases t <;> simp_all [parseItems]

theorem parseEntries_step {fuel : Nat} {t : Tok} {ts rest rest2 rest3 : List Tok}
    {k v : Value} {es : List (Value × Value)} (ht : t ≠ Tok.rbrace)
    (h1 : parseV fuel (t :: ts) = some (k, rest))
    (h2 : parseV fuel rest = some (v, rest2))
    (h3 : parseEntries fuel rest2 = some (es, rest3)) :
    parseEntries (fuel + 1) (t :: ts) = some ((k, v) :: es, rest3) := by
  cases t <;> simp_all [parseEntries]

mutual

theorem parseV_ser (v : Value) (fuel : Nat) (rest : List Tok)
    (h : (ser v).length ≤ fuel) :
    parseV fuel (ser v ++ rest) = some (v, rest) := by
  obtain ⟨f, rfl⟩ : ∃ f, fuel = f + 1 := by
    have := ser_length_pos v
    exact ⟨fuel - 1, by omega⟩
  cases v with
  | null => simp [ser, parseV]
  | bool b => cases b <;> simp [ser, parseV]
  | num n => simp [ser, parseV]
  | str s => simp [ser, parseV]
  | seq items =>
    have hlen : (serItems items).length + 1 ≤ f := by
      simp [ser] at h; omega
    have := parseItems_serItems items f rest hlen
    simp [ser, parseV, this]
  | map entries =>
    have hlen : (serEntries entries).length + 1 ≤ f := by
      simp [ser] at h; omega
    have := parseEntries_serEntries entries f rest hlen
    simp [ser, parseV, this]

theorem parseItems_serItems (vs : List Value) (fuel : Nat) (rest : List Tok)
    (h : (serItems vs).length + 1 ≤ fuel) :
    parseItems fuel (serItems vs ++ Tok.rbrack :: rest) = some (vs, rest) := by
  obtain ⟨f, rfl⟩ : ∃ f, fuel = f + 1 := ⟨fuel - 1, by omega⟩
  cases vs with
  | nil => simp [serItems, parseItems]
  | cons v vs' =>
    obtain ⟨t, ts', hv, ht, -⟩ := ser_head_spec v
    have hvlen := ser_length_pos v
    have hstream : serItems (v :: vs') ++ Tok.rbrack :: rest
        = t :: (ts' ++ (serItems vs' ++ Tok.rbrack :: rest)) := by
      simp [serItems, hv]
    have hlen' : (serItems (v :: vs')).length + 1 ≤ f + 1 := h
    have hslen : (serItems (v :: vs')).length = (ser v).length + (serItems vs').length := by
      simp [serItems]
    have h1 : parseV f (ser v ++ (serItems vs' ++ Tok.rbrack :: rest)) = some (v, serItems vs' ++ Tok.rbrack :: rest) :=
      parseV_ser v f _ (by omega)
    have h2 : parseItems f (serItems vs' ++ Tok.rbrack :: rest) = some (vs', rest) :=
      parseItems_serItems vs' f rest (by omega)
    rw [hstream]
    rw [hv] at h1
    exact parseItems_step ht (by simpa using h1) h2

theorem parseEntries_serEntries (es : List (Value × Value)) (fuel : Nat) (rest : List Tok)
    (h : (serEntries es).length + 1 ≤ fuel) :
    parseEntries fuel (serEntries es ++ Tok.rbrace :: rest) = some (es, rest) := by
  obtain ⟨f, rfl⟩ : ∃ f, fuel = f + 1 := ⟨fuel - 1, by omega⟩
  cases es with
  | nil => simp [serEntries, parseEntries]
  | cons kv es' =>
    obtain ⟨k, v⟩ := kv
    obtain ⟨t, ts', hk, -, ht⟩ := ser_head_spec k
    have hklen := ser_length_pos k
    have hvlen := ser_length_pos v
    have hslen : (serEntries ((k, v) :: es')).length
        = (ser k).length + ((ser v).length + (serEntries es').length) := by
      simp [serEntries]
    have h1 : parseV f (ser k ++ (ser v ++ (serEntries es' ++ Tok.rbrace :: rest)))
        = some (k, ser v ++ (serEntries es' ++ Tok.rbrace :: rest)) :=
      parseV_ser k f _ (by omega)
    have h2 : parseV f (ser v ++ (serEntries es' ++ Tok.rbrace :: rest))
        = some (v, serEntries es' ++ Tok.rbrace :: rest) :=
      parseV_ser v f _ (by omega)
    have h3 : parseEntries f (serEntries es' ++ Tok.rbrace :: rest) = some (es', rest) :=
      parseEntries_serEntries es' f rest (by omega)
    have hstream : serEntries ((k, v) :: es') ++ Tok.rbrace :: rest
        = t :: (ts' ++ (ser v ++ (serEntries es' ++ Tok.rbrace :: rest))) := by
      simp [serEntries, hk]
    rw [hstream]
    rw [hk] at h1
    exact parseEntries_step ht (by simpa using h1) h2 h3

end

/-- Decoding an encoded value in the same format recovers the value. -/
theorem decodeF_encodeF (f : Format) (v : Value) (h : typeOk f v = true) :
    decodeF f (Tok.tag f :: ser v) = .ok v := by
  have hp : parseV ((ser v).length + 1) (ser v ++ []) = some (v, []) :=
    parseV_ser v _ [] (by omega)
  rw [List.append_nil] at hp
  simp [decodeF, hp, h]

/-- Any `decodeF` outcome that is not a success is the DecodeError. -/
theorem decodeF_not_ok {f : Format} {ts : List Tok}
    (h : ∀ v, decodeF f ts ≠ Except.ok v) :
    decodeF f ts = Except.error ConvError.decodeError := by
  unfold decodeF at h ⊢
  cases ts with
  | nil => rfl
  | cons t body =>
    by_cases htag : t = Tok.tag f
    · simp only [htag, if_pos rfl] at h ⊢
      rcases hp : parseV (body.length + 1) body with _ | ⟨v, rest⟩
      · simp [hp]
      · cases rest with
        | nil =>
          by_cases hty : typeOk f v = true
          · exact absurd (by simp [hp, hty]) (h v)
          · simp [hp, hty]
        | cons r rs => simp [hp]
    · simp [htag]

/-- The sample document `{"a": 1, "b": [true, null, "x"]}` as a value tree. -/
def sampleDoc : Value :=
  Value.map
    [(Value.str "a", Value.num 1),
     (Value.str "b", Value.seq [Value.bool true, Value.null, Value.str "x"])]

/-- The sample document serialized as a JSON document. -/
def sampleJsonBytes : List Tok := Tok.tag Format.json :: ser sampleDoc

/-! ## Claims about the format converter -/

/-- C1: for every value tree expressible in a given format's type system
(json, yaml, or the msgpack-like binary format), encoding the tree in that
format and then decoding the result in the same format yields a value tree
equal to the original. -/
theorem claim_c1_roundtrip (f : Format) (v : Value) (h : typeOk f v = true) :
    ∃ bytes, encodeF f v = Except.ok bytes ∧ decodeF f bytes = Except.ok v := by
  refine ⟨Tok.tag f :: ser v, ?_, decodeF_encodeF f v h⟩
  simp [encodeF, h]

/-- Witness for C1 at a concrete json-expressible tree. -/
theorem claim_c1_roundtrip_witness :
    typeOk Format.json sampleDoc = true ∧
      ∃ bytes, encodeF Format.json sampleDoc = Except.ok bytes ∧
        decodeF Format.json bytes = Except.ok sampleDoc :=
  ⟨rfl, claim_c1_roundtrip Format.json sampleDoc rfl⟩

/-- C2: when the source or the target format identifier is not in the
enumerated set {json, yaml, msgpack}, the converter fails with
UnsupportedFormatError and its I/O trace is empty: the failure happens
before any read from the input or write to the output. -/
theorem claim_c2_unsupported_format (srcId tgtId : String)
    (readRes : Option (List Tok))
    (h : parseFormat srcId = none ∨ parseFormat tgtId = none) :
    convert srcId tgtId readRes = (Except.error ConvError.unsupportedFormat, []) := by
  unfold convert
  rcases h with h | h
  · simp [h]
  · rcases hs : parseFormat srcId with _ | src <;> simp [h]

/-- Witness for C2: converting to the unsupported identifier "xml". -/
theorem claim_c2_unsupported_format_witness :
    (parseFormat "json" = none ∨ parseFormat "xml" = none) ∧
      convert "json" "xml" (some sampleJsonBytes)
        = (Except.error ConvError.unsupportedFormat, []) :=
  ⟨Or.inr rfl, claim_c2_unsupported_format "json" "xml" (some sampleJsonBytes) (Or.inr rfl)⟩

/-- C3: for every input whose bytes are not valid for the declared source
format, the converter fails with DecodeError and nothing is written to the
output (the trace contains no write event). -/
theorem claim_c3_decode_error (srcId tgtId : String) (src tgt : Format)
    (input : List Tok)
    (hs : parseFormat srcId = some src) (ht : parseFormat tgtId = some tgt)
    (hbad : ∀ v, decodeF src input ≠ Except.ok v) :
    convert srcId tgtId (some input) = (Except.error ConvError.decodeError, [Ev.read]) ∧
      ∀ out, Ev.write out ∉ (convert srcId tgtId (some input)).2 := by
  have hdec := decodeF_not_ok hbad
  constructor
  · simp [convert, hs, ht, hdec]
  · intro out
    simp [convert, hs, ht, hdec]

/-- Witness for C3: the truncated JSON document `{"a":`. -/
theorem claim_c3_decode_error_witness :
    (parseFormat "json" = some Format.json ∧ parseFormat "yaml" = some Format.yaml ∧
        ∀ v, decodeF Format.json [Tok.tag Format.json, Tok.lbrace, Tok.tstr "a"]
          ≠ Except.ok v) ∧
      convert "json" "yaml" (some [Tok.tag Format.json, Tok.lbrace, Tok.tstr "a"])
          = (Except.error ConvError.decodeError, [Ev.read]) ∧
        ∀ out, Ev.write out ∉
          (convert "json" "yaml"
            (some [Tok.tag Format.json, Tok.lbrace, Tok.tstr "a"])).2 :=
  ⟨⟨rfl, rfl, fun v h => by simp [decodeF, parseV, parseEntries] at h⟩,
    claim_c3_decode_error "json" "yaml" Format.json Format.yaml _ rfl rfl
      (fun v h => by simp [decodeF, parseV, parseEntries] at h)⟩

/-- C4: when the decoded value tree contains a type the target format cannot
represent (it is outside the target's type system), the converter fails with
EncodeError. -/
theorem claim_c4_encode_error (srcId tgtId : String) (src tgt : Format)
    (input : List Tok) (v : Value)
    (hs : parseFormat srcId = some src) (ht : parseFormat tgtId = some tgt)
    (hdec : decodeF src input = Except.ok v) (hty : typeOk tgt v = false) :
    convert srcId tgtId (some input) = (Except.error ConvError.encodeError, [Ev.read]) := by
  simp [convert, hs, ht, hdec, encodeF, hty]

/-- Witness for C4: a mapping with a non-text key, decoded from yaml and
encoded into strict JSON. -/
theorem claim_c4_encode_error_witness :
    (parseFormat "yaml" = some Format.yaml ∧ parseFormat "json" = some Format.json ∧
        decodeF Format.yaml (Tok.tag Format.yaml :: ser (Value.map [(Value.num 1, Value.null)]))
          = Except.ok (Value.map [(Value.num 1, Value.null)]) ∧
        typeOk Format.json (Value.map [(Value.num 1, Value.null)]) = false) ∧
      convert "yaml" "json"
          (some (Tok.tag Format.yaml :: ser (Value.map [(Value.num 1, Value.null)])))
        = (Except.error ConvError.encodeError, [Ev.read]) :=
  ⟨⟨rfl, rfl, rfl, rfl⟩,
    claim_c4_encode_error "yaml" "json" Format.yaml Format.json _ _ rfl rfl rfl rfl⟩

/-- C5: converting the JSON document `{"a": 1, "b": [true, null, "x"]}` to
YAML succeeds and produces a YAML document that decodes to the same value
tree as the original JSON document. -/
theorem claim_c5_json_to_yaml :
    ∃ yamlOut,
      (convert "json" "yaml" (some sampleJsonBytes)).1 = Except.ok yamlOut ∧
        decodeF Format.yaml yamlOut = decodeF Format.json sampleJsonBytes ∧
        decodeF Format.json sampleJsonBytes = Except.ok sampleDoc :=
  ⟨Tok.tag Format.yaml :: ser sampleDoc, rfl, rfl, rfl⟩

/-- C6: the converter is deterministic and stateless: whenever the same
request (same format identifiers and same input read result) appears at any
positions of any two batches of invocations, the two invocations produce
the same result; no state is shared across invocations. -/
theorem claim_c6_deterministic_stateless (reqs1 reqs2 : List Req) (i j : Nat)
    (r : Req) (h1 : reqs1[i]? = some r) (h2 : reqs2[j]? = some r) :
    (runAll reqs1)[i]? = (runAll reqs2)[j]? := by
  simp [runAll, List.getElem?_map, h1, h2]

/-- Witness for C6: the same empty-input request in two different batches
(once alone, once preceded by another invocation) yields the same result. -/
theorem claim_c6_deterministic_stateless_witness :
    ([Req.mk "json" "yaml" (some [])])[0]? = some (Req.mk "json" "yaml" (some [])) ∧
      ([Req.mk "yaml" "msgpack" (some sampleJsonBytes),
        Req.mk "json" "yaml" (some [])])[1]? = some (Req.mk "json" "yaml" (some [])) ∧
      (runAll [Req.mk "json" "yaml" (some [])])[0]?
        = (runAll [Req.mk "yaml" "msgpack" (some sampleJsonBytes),
            Req.mk "json" "yaml" (some [])])[1]? :=
  ⟨rfl, rfl,
    claim_c6_deterministic_stateless _ _ 0 1 (Req.mk "json" "yaml" (some [])) rfl rfl⟩

/-- C7: the CLI exit code is 0 exactly when the conversion succeeds; on any
failure (decode, encode, unsupported format, or I/O error) the exit code is
1, nothing is written to standard output, and a non-empty human-readable
message is written to standard error. -/
theorem claim_c7_cli_exit_codes (srcId tgtId : String) (readRes : Option (List Tok)) :
    ((mainCLI srcId tgtId readRes).1 = 0 ↔
        ∃ out, (convert srcId tgtId readRes).1 = Except.ok out) ∧
      ∀ e, (convert srcId tgtId readRes).1 = Except.error e →
        mainCLI srcId tgtId readRes = (1, [], [errMessage e]) ∧ errMessage e ≠ "" := by
  rcases hc : convert srcId tgtId readRes with ⟨res, tr⟩
  rcases res with e | out
  · refine ⟨⟨fun h0 => ?_, fun ⟨o, ho⟩ => ?_⟩, fun e' he' => ?_⟩
    · simp [mainCLI, hc] at h0
    · simp [hc] at ho
    · simp only [hc] at he'
      cases he'
      refine ⟨by simp [mainCLI, hc], ?_⟩
      cases e <;> simp [errMessage]
  · refine ⟨⟨fun _ => ⟨out, by simp [hc]⟩, fun _ => by simp [mainCLI, hc]⟩,
      fun e' he' => ?_⟩
    simp [hc] at he'

/-- Witness for C7 at a concrete failing invocation. -/
theorem claim_c7_cli_exit_codes_witness :
    ((mainCLI "json" "xml" (some sampleJsonBytes)).1 = 0 ↔
        ∃ out, (convert "json" "xml" (some sampleJsonBytes)).1 = Except.ok out) ∧
      ∀ e, (convert "json" "xml" (some sampleJsonBytes)).1 = Except.error e →
        mainCLI "json" "xml" (some sampleJsonBytes) = (1, [], [errMessage e]) ∧
          errMessage e ≠ "" :=
  claim_c7_cli_exit_codes "json" "xml" (some sampleJsonBytes)

/-- C8: on any read input, the converter's result is exactly the composition
of the target format's encoder with the source format's decoder: a single
linear decode-then-encode transform with no intermediate rewriting. -/
theorem claim_c8_linear_transform (srcId tgtId : String) (src tgt : Format)
    (input : List Tok)
    (hs : parseFormat srcId = some src) (ht : parseFormat tgtId = some tgt) :
    (convert srcId tgtId (some input)).1 = specTransform src tgt input := by
  unfold convert specTransform
  rcases hdec : decodeF src input with e | v
  · simp [hs, ht, hdec, Except.bind]
  · rcases henc : encodeF tgt v with e | out <;> simp [hs, ht, hdec, henc, Except.bind]

/-- Witness for C8 at a concrete conversion. -/
theorem claim_c8_linear_transform_witness :
    (parseFormat "json" = some Format.json ∧ parseFormat "msgpack" = some Format.msgp) ∧
      (convert "json" "msgpack" (some sampleJsonBytes)).1
        = specTransform Format.json Format.msgp sampleJsonBytes :=
  ⟨⟨rfl, rfl⟩,
    claim_c8_linear_transform "json" "msgpack" Format.json Format.msgp sampleJsonBytes rfl rfl⟩

/-! ## `datadeque.todataframe`, embedded from `src/pyaux/_datadeque.pyx`

A Python dict is modelled as an association list (keys unique in real
dicts; `List.lookup` finds the first binding), the deque as a Lean list in
deque order, and a `pandas.DataFrame` built from a dict of columns as an
association list from column name to column values.  `d[f]` on a missing
key raises `KeyError`, modelled as `Except Unit`.  Python iterates `fields`
as a set in unspecified order; the embedding determinizes it to first-dict
key order (`dedup` of the keys), which no claim depends on. -/

namespace datadeque

variable {K V : Type} [DecidableEq K]

/-- One pass of the inner loop `for f in fields: df[f].append(d[f])` of
`todataframe`, over a `df` whose bindings are the `fields`: append `d[f]`
to each column, failing like `KeyError` when `f` is missing from `d`. -/
def appendRow (d : List (K × V)) : List (K × List V) → Except Unit (List (K × List V))
  | [] => Except.ok []
  | (f, col) :: restCols =>
    match d.lookup f with
    | some v => (appendRow d restCols).map (fun cols => (f, col ++ [v]) :: cols)
    | none => Except.error ()

/-- `datadeque.todataframe` from `_datadeque.pyx`: `None` for an empty
deque; otherwise one column per key of the first dict, each initialised
empty and then extended with `d[f]` for every dict `d` of the deque in
order. -/
def todataframe (q : List (List (K × V))) : Except Unit (Option (List (K × List V))) :=
  match q with
  | [] => Except.ok none
  | d0 :: ds =>
    let fields : List K := (d0.map Prod.fst).dedup
    let df0 : List (K × List V) := fields.map (fun f => (f, ([] : List V)))
    ((d0 :: ds).foldlM (fun df d => appendRow d df) df0).map some

/-- Total version of `d[f]` for stating columns (used only under the
hypothesis that the key is present). -/
def pyGetD [Inhabited V] (d : List (K × V)) (f : K) : V :=
  (d.lookup f).getD default

theorem appendRow_ok [Inhabited V] (d : List (K × V)) (df : List (K × List V))
    (h : ∀ p ∈ df, (d.lookup p.1).isSome = true) :
    appendRow d df = Except.ok (df.map (fun p => (p.1, p.2 ++ [pyGetD d p.1]))) := by
  induction df with
  | nil => rfl
  | cons p restCols ih =>
    obtain ⟨f, col⟩ := p
    have hf : (d.lookup f).isSome = true := h (f, col) (by simp)
    obtain ⟨v, hv⟩ := Option.isSome_iff_exists.mp hf
    have ih' := ih (fun p hp => h p (by simp [hp]))
    simp [appendRow, hv, ih', pyGetD, Except.map]

theorem foldl_appendRow_ok [Inhabited V] (ds : List (List (K × V)))
    (df : List (K × List V))
    (h : ∀ d ∈ ds, ∀ f ∈ df.map Prod.fst, (d.lookup f).isSome = true) :
    ds.foldlM (fun df d => appendRow d df) df
      = Except.ok (df.map (fun p => (p.1, p.2 ++ ds.map (fun d => pyGetD d p.1)))) := by
  induction ds generalizing df with
  | nil => simp [pure, Except.pure]
  | cons d ds' ih =>
    have hd : appendRow d df = Except.ok (df.map (fun p => (p.1, p.2 ++ [pyGetD d p.1]))) :=
      appendRow_ok d df (fun p hp => h d (by simp) p.1 (by simp; exact ⟨p.2, hp⟩))
    have hkeys : (df.map (fun p => (p.1, p.2 ++ [pyGetD d p.1]))).map Prod.fst
        = df.map Prod.fst := by
      simp [List.map_map, Function.comp]
    have ih' := ih (df.map (fun p => (p.1, p.2 ++ [pyGetD d p.1])))
      (fun d' hd' f hf => h d' (by simp [hd']) f (by rwa [hkeys] at hf))
    have hstep : (d :: ds').foldlM (fun df d => appendRow d df) df
        = ds'.foldlM (fun df d => appendRow d df)
            (df.map (fun p => (p.1, p.2 ++ [pyGetD d p.1]))) := by
      rw [List.foldlM_cons, hd]; rfl
    rw [hstep, ih']
    simp [List.map_map, Function.comp, List.append_assoc]

theorem lookup_map_self {β : Type} (fields : List K) (g : K → β) (f : K)
    (hf : f ∈ fields) :
    (fields.map (fun x => (x, g x))).lookup f = some (g f) := by
  induction fields with
  | nil => simp at hf
  | cons x xs ih =>
    by_cases hfx : f = x
    · subst hfx; simp [List.lookup]
    · have hmem : f ∈ xs := by
        rcases List.mem_cons.mp hf with hfx2 | hfx2
        · exact absurd hfx2 hfx
        · exact hfx2
      have hbeq : (f == x) = false := beq_eq_false_iff_ne.mpr hfx
      simp [List.lookup, hbeq, ih hmem]

end datadeque

/-- C9: for a non-empty datadeque of dicts in which every dict contains
every key of the first dict, `todataframe` returns a DataFrame whose
columns are exactly the first dict's keys, the column of key `f` being the
list of `d[f]` over the deque in order; keys absent from the first dict are
ignored. -/
theorem claim_c9_todataframe_columns {K V : Type} [DecidableEq K] [Inhabited V]
    (d0 : List (K × V)) (rest : List (List (K × V)))
    (h : ∀ d ∈ d0 :: rest, ∀ f ∈ d0.map Prod.fst, (d.lookup f).isSome = true) :
    ∃ df, datadeque.todataframe (d0 :: rest) = Except.ok (some df) ∧
      df.map Prod.fst = (d0.map Prod.fst).dedup ∧
      ∀ f ∈ d0.map Prod.fst,
        df.lookup f = some ((d0 :: rest).map (fun d => datadeque.pyGetD d f)) := by
  classical
  set fields : List K := (d0.map Prod.fst).dedup with hfields
  have hkeys0 : (fields.map (fun f => (f, ([] : List V)))).map Prod.fst = fields := by
    rw [List.map_map]
    exact List.map_id fields
  have hfold := datadeque.foldl_appendRow_ok (d0 :: rest)
    (fields.map (fun f => (f, ([] : List V))))
    (fun d hd f hf => h d hd f (by rw [hkeys0] at hf; exact List.mem_dedup.mp hf))
  refine ⟨fields.map (fun f => (f, (d0 :: rest).map (fun d => datadeque.pyGetD d f))),
    ?_, ?_, ?_⟩
  · simp only [datadeque.todataframe, hfold]
    simp [List.map_map, Function.comp, Except.map]
  · rw [List.map_map]
    exact List.map_id fields
  · intro f hf
    exact datadeque.lookup_map_self fields _ f (List.mem_dedup.mpr hf)

/-- Witness for C9 at a concrete two-element deque. -/
theorem claim_c9_todataframe_columns_witness :
    (∀ d ∈ [[("a", (1 : Int)), ("b", 2)], [("b", 4), ("a", 3), ("c", 5)]],
        ∀ f ∈ ([("a", (1 : Int)), ("b", 2)]).map Prod.fst,
          (d.lookup f).isSome = true) ∧
      ∃ df, datadeque.todataframe
          [[("a", (1 : Int)), ("b", 2)], [("b", 4), ("a", 3), ("c", 5)]]
          = Except.ok (some df) ∧
        df.map Prod.fst = (([("a", (1 : Int)), ("b", 2)]).map Prod.fst).dedup ∧
        ∀ f ∈ ([("a", (1 : Int)), ("b", 2)]).map Prod.fst,
          df.lookup f = some
            ([[("a", (1 : Int)), ("b", 2)], [("b", 4), ("a", 3), ("c", 5)]].map
              (fun d => datadeque.pyGetD d f)) :=
  ⟨by decide,
    claim_c9_todataframe_columns [("a", (1 : Int)), ("b", 2)] [[("b", 4), ("a", 3), ("c", 5)]]
      (by decide)⟩

/-- C10: for the empty datadeque, `todataframe` returns Python's `None`
(modelled as `none`), not an empty DataFrame. -/
theorem claim_c10_todataframe_empty {K V : Type} [DecidableEq K] :
    datadeque.todataframe ([] : List (List (K × V))) = Except.ok none := rfl

/-- Witness for C10 at concrete key/value types. -/
theorem claim_c10_todataframe_empty_witness :
    datadeque.todataframe ([] : List (List (String × Int))) = Except.ok none :=
  claim_c10_todataframe_empty

end Pyaux
